import Mathlib

/-!
Shallow embedding of the ratd tracker server (Rust) for specification checking.

The embedding follows the source files:
  * src/protocol.rs            — data model, Lobby, LobbyList (registry)
  * src/protocol/serialize.rs  — the TLV encoder
  * src/protocol/parse.rs      — the TLV decoder
  * src/server/protocol/parser.rs — try_split_tags and the integer byte combiners
  * src/server.rs              — Server::run's per-job handler

Bytes are modelled as Nat (the wire carries u8 values, i.e. naturals below 256);
u16/u32 values are Nat with explicit truncation (% 256 at each emitted byte,
mirroring Rust's as-u8 casts).  Machine-endianness-dependent code
(cfg!(target_endian = ...)) is modelled with an explicit Bool parameter
selecting the compile-time branch; the server pipeline instantiates the
little-endian-host branch, which is the branch the repository's own unit tests
pin down.  The Rust while loops that scan a buffer consume at least one byte
per iteration; they are rendered with a structural fuel counter initialised to
the buffer length, which is always sufficient.
-/

deriving instance DecidableEq for Except

namespace Ratd

/-- Commands of the wire protocol (src/protocol.rs, enum Command). -/
inductive Command
  | Query
  | Response
  | Hello
  | Goodbye
  deriving DecidableEq, Repr

/-- Game status values (src/protocol.rs, enum GameStatus). -/
inductive GameStatus
  | NotLoaded
  | Loaded
  | Active
  | Paused
  deriving DecidableEq, Repr

/-- Decode errors (src/protocol/parse.rs, enum Error). -/
inductive ParseError
  | UnexpectedDatagramBoundary
  | MissingProtocolVersion
  | MissingCommand
  | InvalidTag
  | InvalidCommand
  | InvalidGameStatus
  | InvalidPlayerIndex
  deriving DecidableEq, Repr

/-- An IPv4 socket address: four octets and a port (std::net::SocketAddr as
used by the tracker; the code only ever builds V4 addresses). -/
structure SockAddr where
  ip : Nat × Nat × Nat × Nat
  port : Nat
  deriving DecidableEq, Repr

/-- The tag (field) alphabet of the protocol
(src/protocol.rs, enum TrackerTag; payload newtypes are inlined). -/
inductive TrackerTag
  | Command (c : Ratd.Command)
  | QueryId (v : Nat)
  | QueryString (s : List Nat)
  | HostDomain (s : List Nat)
  | ResponseIndex (v : Nat)
  | ResponseCount (v : Nat)
  | StatusMessage (s : List Nat)
  | InfoMessage (s : List Nat)
  | Invitation (s : List Nat)
  | HasPassword
  | PlayerLimit (v : Nat)
  | GameStatus (g : Ratd.GameStatus)
  | LevelDirectory (s : List Nat)
  | LevelName (s : List Nat)
  | ProtocolVersion (v : Nat)
  | SoftwareVersion (s : List Nat)
  | PlayerIpPort (pid : Nat) (addr : SockAddr)
  | PlayerNick (pid : Nat) (s : List Nat)
  | PlayerLives (pid : Nat) (v : Nat)
  | PlayerLocation (pid : Nat) (lat lon : Nat)
  deriving DecidableEq, Repr

def MAX_PLAYERS : Nat := 6

def PROTOCOL_VERSION : Nat := 6

/-- The in-memory message (src/protocol.rs, struct Datagram). -/
structure Datagram where
  protocol_version : Nat
  command : Command
  host_address : Option SockAddr
  query_id : Option Nat
  tags : List TrackerTag
  deriving DecidableEq, Repr

/-! ## Encoding (src/protocol/serialize.rs) -/

/-- Byte swap of a u16, as Rust u16::swap_bytes. -/
def swapBytesU16 (v : Nat) : Nat :=
  ((v % 256) <<< 8) ||| ((v >>> 8) % 256)

/-- Byte swap of a u32, as Rust u32::swap_bytes. -/
def swapBytesU32 (v : Nat) : Nat :=
  ((v % 256) <<< 24) ||| (((v >>> 8) % 256) <<< 16) |||
    (((v >>> 16) % 256) <<< 8) ||| ((v >>> 24) % 256)

/-- impl Serialize for IntPayload: the source selects on
cfg!(target_endian = "little") and swaps on big-endian hosts, then emits
(value >> 8) as u8 and (value & 0xff) as u8. bigHost selects
the compile-time branch. -/
def serializeU16OnHost (bigHost : Bool) (v : Nat) : List Nat :=
  let value := if bigHost then swapBytesU16 v else v
  [(value >>> 8) % 256, value % 256]

/-- impl Serialize for BigIntPayload, with the same host-endianness selection:
emits (value >> 24) as u8, then each lower byte. -/
def serializeU32OnHost (bigHost : Bool) (v : Nat) : List Nat :=
  let value := if bigHost then swapBytesU32 v else v
  [(value >>> 24) % 256, (value >>> 16) % 256, (value >>> 8) % 256, value % 256]

/-- The u16 payload encoder as compiled on the reference (little-endian) host,
the branch fixed by the repository's unit tests. -/
def serializeU16 (v : Nat) : List Nat := serializeU16OnHost false v

/-- The u32 payload encoder as compiled on the reference (little-endian) host. -/
def serializeU32 (v : Nat) : List Nat := serializeU32OnHost false v

/-- impl Serialize for IndexedSocketAddrPayload: player id byte, four IPv4
octets, then the port as a u16 (with the same endianness selection as
IntPayload; little-endian-host branch). -/
def serializeSockAddr (pid : Nat) (a : SockAddr) : List Nat :=
  [pid % 256, a.ip.1 % 256, a.ip.2.1 % 256, a.ip.2.2.1 % 256, a.ip.2.2.2 % 256] ++
    serializeU16 a.port

/-- fn pack_tag: [type, payload.len() as u8] ++ payload.  The length byte is
the payload length truncated to u8. -/
def packTag (id : Nat) (payload : List Nat) : List Nat :=
  id :: (payload.length % 256) :: payload

/-- impl Serialize for CommandPayload (the discriminant byte). -/
def Command.toByte : Command → Nat
  | .Query => 0
  | .Response => 1
  | .Hello => 2
  | .Goodbye => 3

/-- impl Serialize for GameStatusPayload (the discriminant byte). -/
def GameStatus.toByte : GameStatus → Nat
  | .NotLoaded => 0
  | .Loaded => 1
  | .Active => 2
  | .Paused => 3

/-- impl Serialize for TrackerTag (src/protocol/serialize.rs): each variant is
packed with its type code; HasPassword is emitted directly as [10, 0]. -/
def TrackerTag.serialize : TrackerTag → List Nat
  | .Command c => packTag 1 [c.toByte]
  | .QueryId v => packTag 2 (serializeU32 v)
  | .QueryString s => packTag 3 s
  | .HostDomain s => packTag 4 s
  | .ResponseIndex v => packTag 5 (serializeU16 v)
  | .ResponseCount v => packTag 6 (serializeU16 v)
  | .StatusMessage s => packTag 7 s
  | .InfoMessage s => packTag 8 s
  | .Invitation s => packTag 9 s
  | .HasPassword => [10, 0]
  | .PlayerLimit v => packTag 11 [v % 256]
  | .GameStatus g => packTag 12 [g.toByte]
  | .LevelDirectory s => packTag 13 s
  | .LevelName s => packTag 14 s
  | .ProtocolVersion v => packTag 15 (serializeU16 v)
  | .SoftwareVersion s => packTag 16 s
  | .PlayerIpPort pid a => packTag 255 (serializeSockAddr pid a)
  | .PlayerNick pid s => packTag 254 (pid % 256 :: s)
  | .PlayerLives pid v => packTag 253 (pid % 256 :: serializeU16 v)
  | .PlayerLocation pid la lo => packTag 252 (pid % 256 :: (serializeU16 la ++ serializeU16 lo))

/-- impl Serialize for Datagram: ProtocolVersion field, Command field, QueryId
field when query_id is Some, then every remaining tag in insertion order. -/
def Datagram.serialize (d : Datagram) : List Nat :=
  (TrackerTag.ProtocolVersion d.protocol_version).serialize ++
    (TrackerTag.Command d.command).serialize ++
    (match d.query_id with
     | some q => (TrackerTag.QueryId q).serialize
     | none => []) ++
    d.tags.flatMap TrackerTag.serialize

/-! ## Decoding (src/protocol/parse.rs, src/server/protocol/parser.rs) -/

/-- impl TryParse for CommandPayload: exactly one byte, value in 0..=3. -/
def tryParseCommand (bytes : List Nat) : Except ParseError Command :=
  match bytes with
  | [0] => .ok .Query
  | [1] => .ok .Response
  | [2] => .ok .Hello
  | [3] => .ok .Goodbye
  | _ => .error .InvalidCommand

/-- impl TryParse for GameStatusPayload: exactly one byte, value in 0..=3. -/
def tryParseGameStatus (bytes : List Nat) : Except ParseError GameStatus :=
  match bytes with
  | [0] => .ok .NotLoaded
  | [1] => .ok .Loaded
  | [2] => .ok .Active
  | [3] => .ok .Paused
  | _ => .error .InvalidGameStatus

/-- try_bytes_to_u16 / impl TryParse for IntPayload, with the compile-time
host-endianness branch made explicit: the little-endian-host branch combines
most-significant byte first, the big-endian-host branch least-significant
byte first. -/
def tryParseU16OnHost (bigHost : Bool) (bytes : List Nat) : Except ParseError Nat :=
  match bytes with
  | [b0, b1] => .ok (if bigHost then (b1 <<< 8) ||| b0 else (b0 <<< 8) ||| b1)
  | _ => .error .InvalidTag

/-- try_bytes_to_u32 / impl TryParse for BigIntPayload, host branch explicit. -/
def tryParseU32OnHost (bigHost : Bool) (bytes : List Nat) : Except ParseError Nat :=
  match bytes with
  | [b0, b1, b2, b3] =>
    .ok (if bigHost then (b3 <<< 24) ||| (b2 <<< 16) ||| (b1 <<< 8) ||| b0
         else (b0 <<< 24) ||| (b1 <<< 16) ||| (b2 <<< 8) ||| b3)
  | _ => .error .InvalidTag

/-- The u16 payload decoder as compiled on the reference (little-endian) host. -/
def tryParseU16 (bytes : List Nat) : Except ParseError Nat :=
  tryParseU16OnHost false bytes

/-- The u32 payload decoder as compiled on the reference (little-endian) host. -/
def tryParseU32 (bytes : List Nat) : Except ParseError Nat :=
  tryParseU32OnHost false bytes

/-- impl TryParse for SmallIntPayload: exactly one byte. -/
def tryParseU8 (bytes : List Nat) : Except ParseError Nat :=
  match bytes with
  | [b] => .ok b
  | _ => .error .InvalidTag

/-- impl TryParse for PlayerId: one byte, value below MAX_PLAYERS. -/
def tryParsePlayerId (bytes : List Nat) : Except ParseError Nat :=
  match bytes with
  | [b] => if b < MAX_PLAYERS then .ok b else .error .InvalidPlayerIndex
  | _ => .error .InvalidPlayerIndex

/-- impl TryParse for IndexedSocketAddrPayload: exactly 7 bytes — player id,
four IPv4 octets, u16 port. -/
def tryParseIndexedSocketAddr (bytes : List Nat) : Except ParseError (Nat × SockAddr) :=
  match bytes with
  | [b0, b1, b2, b3, b4, b5, b6] =>
    match tryParsePlayerId [b0] with
    | .error e => .error e
    | .ok pid =>
      match tryParseU16 [b5, b6] with
      | .error e => .error e
      | .ok port => .ok (pid, { ip := (b1, b2, b3, b4), port := port })
  | _ => .error .InvalidTag

/-- impl TryParse for IndexedRawStringPayload: nonempty — player id then raw
bytes. -/
def tryParseIndexedRawString (bytes : List Nat) : Except ParseError (Nat × List Nat) :=
  match bytes with
  | [] => .error .InvalidTag
  | b0 :: rest =>
    match tryParsePlayerId [b0] with
    | .error e => .error e
    | .ok pid => .ok (pid, rest)

/-- impl TryParse for IndexedIntPayload: exactly 3 bytes. -/
def tryParseIndexedInt (bytes : List Nat) : Except ParseError (Nat × Nat) :=
  match bytes with
  | [b0, b1, b2] =>
    match tryParsePlayerId [b0] with
    | .error e => .error e
    | .ok pid =>
      match tryParseU16 [b1, b2] with
      | .error e => .error e
      | .ok v => .ok (pid, v)
  | _ => .error .InvalidTag

/-- impl TryParse for IndexedLocationPayload: exactly 5 bytes. -/
def tryParseIndexedLocation (bytes : List Nat) : Except ParseError (Nat × Nat × Nat) :=
  match bytes with
  | [b0, b1, b2, b3, b4] =>
    match tryParsePlayerId [b0] with
    | .error e => .error e
    | .ok pid =>
      match tryParseU16 [b1, b2] with
      | .error e => .error e
      | .ok la =>
        match tryParseU16 [b3, b4] with
        | .error e => .error e
        | .ok lo => .ok (pid, la, lo)
  | _ => .error .InvalidTag

/-- impl TryParse for TrackerTag: the slice is [type, len, payload...]; fewer
than two bytes or a length byte disagreeing with the payload length is an
invalid tag; otherwise dispatch on the type code. -/
def TrackerTag.tryParse (bytes : List Nat) : Except ParseError TrackerTag :=
  match bytes with
  | t :: len :: payload =>
    if payload.length ≠ len then .error .InvalidTag
    else
      match t with
      | 1 => (tryParseCommand payload).map TrackerTag.Command
      | 2 => (tryParseU32 payload).map TrackerTag.QueryId
      | 3 => .ok (TrackerTag.QueryString payload)
      | 4 => .ok (TrackerTag.HostDomain payload)
      | 5 => (tryParseU16 payload).map TrackerTag.ResponseIndex
      | 6 => (tryParseU16 payload).map TrackerTag.ResponseCount
      | 7 => .ok (TrackerTag.StatusMessage payload)
      | 8 => .ok (TrackerTag.InfoMessage payload)
      | 9 => .ok (TrackerTag.Invitation payload)
      | 10 => .ok TrackerTag.HasPassword
      | 11 => (tryParseU8 payload).map TrackerTag.PlayerLimit
      | 12 => (tryParseGameStatus payload).map TrackerTag.GameStatus
      | 13 => .ok (TrackerTag.LevelDirectory payload)
      | 14 => .ok (TrackerTag.LevelName payload)
      | 15 => (tryParseU16 payload).map TrackerTag.ProtocolVersion
      | 16 => .ok (TrackerTag.SoftwareVersion payload)
      | 255 => (tryParseIndexedSocketAddr payload).map fun p => TrackerTag.PlayerIpPort p.1 p.2
      | 254 => (tryParseIndexedRawString payload).map fun p => TrackerTag.PlayerNick p.1 p.2
      | 253 => (tryParseIndexedInt payload).map fun p => TrackerTag.PlayerLives p.1 p.2
      | 252 => (tryParseIndexedLocation payload).map fun p => TrackerTag.PlayerLocation p.1 p.2.1 p.2.2
      | _ => .error .InvalidTag
  | _ => .error .InvalidTag

/-- The scanning loop of impl TryParse for Datagram (src/protocol/parse.rs,
lines 251-276).  A 0 byte at a tag position is skipped; otherwise the next
byte is the declared length, a missing length byte or a short payload is a
boundary error, and the parsed tag is intercepted into the protocol-version
or command slot or appended to the tag list.  The loop consumes at least one
byte per iteration; fuel is initialised to the buffer length and decreases by
one per iteration, so it never runs out on the paths the program takes: the
fuel-exhaustion case mirrors the boundary error and is unreachable from
Datagram.tryParse, which supplies the buffer length as fuel. -/
def parseTagsLoopF :
    Nat → List Nat → Option Nat → Option Command → List TrackerTag →
      Except ParseError (Option Nat × Option Command × List TrackerTag)
  | _, [], pv, cmd, acc => .ok (pv, cmd, acc)
  | 0, _ :: _, _, _, _ => .error .UnexpectedDatagramBoundary
  | f + 1, b :: rest, pv, cmd, acc =>
    if b = 0 then parseTagsLoopF f rest pv cmd acc
    else
      match rest with
      | [] => .error .UnexpectedDatagramBoundary
      | len :: rest2 =>
        if rest2.length < len then .error .UnexpectedDatagramBoundary
        else
          match TrackerTag.tryParse (b :: len :: rest2.take len) with
          | .error e => .error e
          | .ok (.ProtocolVersion v) => parseTagsLoopF f (rest2.drop len) (some v) cmd acc
          | .ok (.Command c) => parseTagsLoopF f (rest2.drop len) pv (some c) acc
          | .ok tag => parseTagsLoopF f (rest2.drop len) pv cmd (acc ++ [tag])

/-- impl TryParse for Datagram (src/protocol/parse.rs, lines 244-283): scan
the whole buffer, then demand the protocol-version and command slots.  The
source constructs the result with only the three scanned components — the
host_address and query_id slots of the parsed Datagram are never populated. -/
def Datagram.tryParse (bytes : List Nat) : Except ParseError Datagram :=
  match parseTagsLoopF bytes.length bytes none none [] with
  | .error e => .error e
  | .ok (pv, cmd, tags) =>
    match pv with
    | none => .error .MissingProtocolVersion
    | some v =>
      match cmd with
      | none => .error .MissingCommand
      | some c =>
        .ok { protocol_version := v, command := c,
              host_address := none, query_id := none, tags := tags }

/-- try_split_tags (src/server/protocol/parser.rs, lines 148-175): the same
scan, collecting the raw [type, len, payload...] slices instead of parsing
them.  Fuel as in parseTagsLoopF. -/
def trySplitTagsF : Nat → List Nat → Except ParseError (List (List Nat))
  | _, [] => .ok []
  | 0, _ :: _ => .error .UnexpectedDatagramBoundary
  | f + 1, b :: rest =>
    if b = 0 then trySplitTagsF f rest
    else
      match rest with
      | [] => .error .UnexpectedDatagramBoundary
      | len :: rest2 =>
        if rest2.length < len then .error .UnexpectedDatagramBoundary
        else
          match trySplitTagsF f (rest2.drop len) with
          | .error e => .error e
          | .ok v => .ok ((b :: len :: rest2.take len) :: v)

/-- try_split_tags applied to a whole buffer. -/
def trySplitTags (bytes : List Nat) : Except ParseError (List (List Nat)) :=
  trySplitTagsF bytes.length bytes

/-! ## Lobby and registry (src/protocol.rs) -/

/-- A registered lobby: the precomputed serialized Response template and the
last-modified timestamp (src/protocol.rs, struct Lobby).  Time is an abstract
Nat (std::time::Instant). -/
structure Lobby where
  preserialized : List Nat
  modified : Nat
  deriving DecidableEq, Repr

/-- The per-tag rewrite performed by Lobby::new: a PlayerIpPort tag for player
0 has its self-reported IP replaced by the observed source IP, keeping the
self-reported port; every other tag is untouched. -/
def replaceHostIp (realAddr : SockAddr) : TrackerTag → TrackerTag
  | .PlayerIpPort pid a =>
    if pid = 0 then .PlayerIpPort pid { ip := realAddr.ip, port := a.port }
    else .PlayerIpPort pid a
  | t => t

/-- The Response datagram Lobby::new builds before serializing it: a fresh
Response (protocol version PROTOCOL_VERSION, no query id) whose tags are the
Hello's tags with the player-0 IP rewrite applied; host_address is taken from
the Hello and overwritten with the observed address when a player-0
PlayerIpPort tag is present. -/
def responseTemplate (realAddr : SockAddr) (d : Datagram) : Datagram :=
  { protocol_version := PROTOCOL_VERSION
    command := .Response
    host_address :=
      if d.tags.any (fun t => match t with | .PlayerIpPort pid _ => pid = 0 | _ => false)
      then some realAddr else d.host_address
    query_id := none
    tags := d.tags.map (replaceHostIp realAddr) }

/-- Lobby::new with the command check already passed: serialize the rewritten
Response template and record the creation instant. -/
def Lobby.new (now : Nat) (realAddr : SockAddr) (d : Datagram) : Lobby :=
  { preserialized := (responseTemplate realAddr d).serialize, modified := now }

/-- Lobby::new including its guard: the source panics unless the datagram's
command is Hello; the panic is modelled as none. -/
def Lobby.mk? (now : Nat) (realAddr : SockAddr) (d : Datagram) : Option Lobby :=
  if d.command = Command.Hello then some (Lobby.new now realAddr d) else none

/-- Lobby::as_serialized_response: the precomputed template with QueryId,
ResponseIndex and ResponseCount tags appended. -/
def Lobby.asSerializedResponse (l : Lobby) (queryId respIndex respCount : Nat) : List Nat :=
  l.preserialized ++ (TrackerTag.QueryId queryId).serialize ++
    (TrackerTag.ResponseIndex respIndex).serialize ++
    (TrackerTag.ResponseCount respCount).serialize

/-- The registry state: the HashMap<SocketAddr, Lobby> behind LobbyList's
lock, modelled as an association list with pairwise-distinct keys. -/
abbrev LobbyMap : Type := List (SockAddr × Lobby)

/-- HashMap::insert — replace the entry for an existing key, append a fresh
key. -/
def mapInsert (a : SockAddr) (v : Lobby) : LobbyMap → LobbyMap
  | [] => [(a, v)]
  | e :: rest => if e.1 = a then (a, v) :: rest else e :: mapInsert a v rest

/-- HashMap::remove — drop the entry with the given key. -/
def mapRemove (a : SockAddr) (m : LobbyMap) : LobbyMap :=
  m.filter (fun e => decide (e.1 ≠ a))

/-- HashMap::get — look an entry up by key. -/
def mapFind (a : SockAddr) : LobbyMap → Option Lobby
  | [] => none
  | e :: rest => if e.1 = a then some e.2 else mapFind a rest

/-- LobbyList::insert (src/protocol.rs, lines 249-252): build a Lobby from
the datagram (Lobby::new panics on a non-Hello, modelled as none) and insert
it, replacing any entry for the same address. -/
def LobbyList.insert (now : Nat) (addr : SockAddr) (d : Datagram) (m : LobbyMap) :
    Option LobbyMap :=
  (Lobby.mk? now addr d).map fun lob => mapInsert addr lob m

/-- LobbyList::remove. -/
def LobbyList.remove (addr : SockAddr) (m : LobbyMap) : LobbyMap :=
  mapRemove addr m

/-- LobbyList::cleanup (src/protocol.rs, lines 226-240): collect the keys of
all entries whose elapsed time (now - modified, saturating as Instant's
elapsed) is at least the expiration threshold, then remove each collected
key. -/
def LobbyList.cleanup (now ttl : Nat) (m : LobbyMap) : LobbyMap :=
  let toDelete := (m.filter (fun e => decide (ttl ≤ now - e.2.modified))).map (fun e => e.1)
  toDelete.foldl (fun acc k => mapRemove k acc) m

/-- LobbyList::search (src/protocol.rs, lines 270-299).  size is
min(list.len(), limit); when it is 0 the result is one serialized Response
carrying the query id and a ResponseCount of 0; otherwise each of the first
size lobbies contributes its template with QueryId, 0-based ResponseIndex and
batch ResponseCount appended.  The term parameter is accepted and unused
(both match arms of the source are the same iterator). -/
def LobbyList.search (m : LobbyMap) (term : Option (List Nat)) (queryId limit : Nat) :
    List (List Nat) :=
  let size := min (List.length m) limit
  if size = 0 then
    [Datagram.serialize
      { protocol_version := PROTOCOL_VERSION, command := .Response,
        host_address := none, query_id := some queryId,
        tags := [.ResponseCount 0] }]
  else
    let filteredList := match term with
      | some _ => m.take size
      | none => m.take size
    filteredList.enum.map fun p => p.2.2.asSerializedResponse queryId p.1 size

/-! ## The per-datagram worker job (src/server.rs, Server::run, lines 64-92) -/

/-- What one worker job does with one received buffer.  The registry-changing
outcomes carry the new registry state; panicked marks an unwrap/panic
reachable in the job closure. -/
inductive JobOutcome
  | dropped (e : ParseError)
  | responded (outgoing : List (List Nat))
  | ignored
  | registered (m : LobbyMap)
  | deregistered (m : LobbyMap)
  | panicked
  deriving DecidableEq

/-- The body of the job closure Server::run submits for one datagram: decode;
on failure log and drop; Query unwraps the query id (a panic when it is
None) and searches with a fixed limit of 500; Response is ignored; Hello
inserts; Goodbye removes. -/
def handleJob (now : Nat) (src : SockAddr) (m : LobbyMap) (bytes : List Nat) : JobOutcome :=
  match Datagram.tryParse bytes with
  | .error e => .dropped e
  | .ok d =>
    match d.command with
    | .Query =>
      match d.query_id with
      | some q => .responded (LobbyList.search m none q 500)
      | none => .panicked
    | .Response => .ignored
    | .Hello =>
      match LobbyList.insert now src d m with
      | some m2 => .registered m2
      | none => .panicked
    | .Goodbye => .deregistered (LobbyList.remove src m)

/-! ## Concrete example data -/

/-- A well-formed Query buffer: ProtocolVersion 6, Command Query, QueryId
3225. -/
def queryWithIdBytes : List Nat := [15, 2, 0, 6, 1, 1, 0, 2, 4, 0, 0, 12, 153]

/-- The observed source address used in the spec's examples. -/
def observedAddr : SockAddr := { ip := (203, 0, 113, 9), port := 40000 }

/-- A Hello message like the repository's build_hello test fixture, with the
self-reported player-0 address 10.0.2.15:19567. -/
def helloExample : Datagram :=
  { protocol_version := 6
    command := .Hello
    host_address := some { ip := (10, 0, 2, 15), port := 19567 }
    query_id := none
    tags := [.SoftwareVersion [49, 46, 48, 46, 50],
             .PlayerLimit 6,
             .HasPassword,
             .PlayerIpPort 0 { ip := (10, 0, 2, 15), port := 19567 },
             .GameStatus .Active,
             .PlayerNick 0 [115, 105, 108, 118, 101, 114, 102, 111, 120]] }

/-- A valid Query message whose query-id slot is set (as built by
Datagram::new plus set_query_id). -/
def queryMessageExample : Datagram :=
  { protocol_version := 6, command := .Query, host_address := none,
    query_id := some 3225, tags := [] }

/-! ## Claim theorems -/

/-- Claim C1: the claim asserts that a buffer decoding successfully with
command Query always yields get_query_id = Some, so the unwrap in
Server::run's Query branch never panics.  The code contradicts this (and its
own comment "Safe to unwrap query id"): the parser never populates the
query_id slot — even for a well-formed Query carrying a QueryId field the
slot stays None (the field remains in the generic tag list) and the worker
job panics at the unwrap. -/
theorem query_branch_unwrap_panics :
    Datagram.tryParse queryWithIdBytes =
      .ok { protocol_version := 6, command := .Query, host_address := none,
            query_id := none, tags := [.QueryId 3225] } ∧
    handleJob 0 observedAddr [] queryWithIdBytes = .panicked ∧
    Datagram.tryParse [15, 2, 0, 6, 1, 1, 0] =
      .ok { protocol_version := 6, command := .Query, host_address := none,
            query_id := none, tags := [] } ∧
    handleJob 0 observedAddr [] [15, 2, 0, 6, 1, 1, 0] = .panicked := by
  refine ⟨by decide, by decide, by decide, by decide⟩

/-- Claim C2: the claim asserts decode(encode(m)) restores the dedicated
query-id slot and keeps the QueryId field out of the remaining-field list.
The code contradicts this: for a message with query_id = Some 3225 the
encoder emits the QueryId field, but the decoder leaves the slot None and the
QueryId field inside the remaining-field list. -/
theorem roundtrip_drops_query_id_slot :
    queryMessageExample.query_id = some 3225 ∧
    queryMessageExample.serialize = queryWithIdBytes ∧
    Datagram.tryParse queryMessageExample.serialize =
      .ok { protocol_version := 6, command := .Query, host_address := none,
            query_id := none, tags := [.QueryId 3225] } ∧
    TrackerTag.QueryId 3225 ∈
      [TrackerTag.QueryId 3225] := by
  refine ⟨rfl, by decide, by decide, by decide⟩

/-- Claim C6: at any position where the scanner expects a tag, a 0 byte is
consumed as a one-byte Null marker and leaves no trace (the loop recurses on
the rest of the buffer with unchanged state); concretely, a buffer with
ProtocolVersion, Command and the field stream ResponseCount 500, Null, Null,
QueryString [] decodes to exactly the two real fields. -/
theorem null_bytes_skipped :
    (∀ (f : Nat) (rest : List Nat) (pv : Option Nat) (cmd : Option Command)
        (acc : List TrackerTag),
        parseTagsLoopF (f + 1) (0 :: rest) pv cmd acc = parseTagsLoopF f rest pv cmd acc) ∧
    Datagram.tryParse [15, 2, 0, 6, 1, 1, 0, 6, 2, 1, 244, 0, 0, 3, 0] =
      .ok { protocol_version := 6, command := .Query, host_address := none,
            query_id := none, tags := [.ResponseCount 500, .QueryString []] } := by
  exact ⟨fun f rest pv cmd acc => rfl, by decide⟩

/-- Claim C8: the claim asserts both compile-time endianness branches emit
and read the canonical most-significant-byte-first order.  The code
contradicts this (and its own tests serialize_intpayload / bytes_to_u16,
which pin [1, 244] respectively 3106): the big-endian-host branch swaps
before shifting, so it emits the u16 value 500 as [244, 1] and reads the
canonical wire bytes [1, 244] back as 62465. -/
theorem big_endian_branch_not_canonical :
    serializeU16OnHost false 500 = [1, 244] ∧
    serializeU16OnHost true 500 = [244, 1] ∧
    serializeU16OnHost true 500 ≠ serializeU16OnHost false 500 ∧
    tryParseU16OnHost false [1, 244] = .ok 500 ∧
    tryParseU16OnHost true [1, 244] = .ok 62465 ∧
    tryParseU16OnHost false [12, 34] = .ok 3106 ∧
    tryParseU16OnHost true [12, 34] = .ok 8716 := by
  decide

/-- Claim C10: pack_tag writes the payload length truncated to u8 as the
length byte while appending the whole payload, so any field whose payload
exceeds 255 bytes is emitted with a declared length that disagrees with the
actual payload length. -/
theorem pack_tag_truncates_length (s : List Nat) (h : 255 < s.length) :
    (TrackerTag.QueryString s).serialize = 3 :: (s.length % 256) :: s ∧
    s.length % 256 ≠ s.length ∧
    ((TrackerTag.QueryString s).serialize).length = 2 + s.length := by
  refine ⟨rfl, ?_, ?_⟩
  · have h2 : s.length % 256 < 256 := Nat.mod_lt _ (by norm_num)
    omega
  · simp [TrackerTag.serialize, packTag]
    omega

/-! ### Registry lemmas -/

/-- Replacing an existing key keeps the lookup pointing at the new value. -/
lemma mapFind_mapInsert (a : SockAddr) (v : Lobby) (m : LobbyMap) :
    mapFind a (mapInsert a v m) = some v := by
  induction m with
  | nil => simp [mapInsert, mapFind]
  | cons e rest ih =>
    by_cases h : e.1 = a
    · simp [mapInsert, h, mapFind]
    · simp [mapInsert, h, mapFind, ih]

/-- In a map whose key multiset counts a at most once, inserting at a leaves
exactly one entry keyed a. -/
lemma countP_mapInsert (a : SockAddr) (v : Lobby) (m : LobbyMap)
    (h : List.countP (fun e => decide (e.1 = a)) m ≤ 1) :
    List.countP (fun e => decide (e.1 = a)) (mapInsert a v m) = 1 := by
  induction m with
  | nil => simp [mapInsert, List.countP_cons]
  | cons e rest ih =>
    simp only [List.countP_cons] at h
    by_cases he : e.1 = a
    · rw [if_pos (by simp [he])] at h
      have hrest : List.countP (fun x => decide (x.1 = a)) rest = 0 := by omega
      simp only [mapInsert, if_pos he, List.countP_cons, hrest]
      simp
    · rw [if_neg (by simp [he])] at h
      simp only [mapInsert, if_neg he, List.countP_cons]
      rw [if_neg (by simp [he]), ih (by omega)]

/-- If the key is already present, mapInsert does not change the length. -/
lemma length_mapInsert_of_mem (a : SockAddr) (v : Lobby) (m : LobbyMap)
    (h : 1 ≤ List.countP (fun e => decide (e.1 = a)) m) :
    (mapInsert a v m).length = m.length := by
  induction m with
  | nil => simp [List.countP_nil] at h
  | cons e rest ih =>
    simp only [List.countP_cons] at h
    by_cases he : e.1 = a
    · simp [mapInsert, he]
    · rw [if_neg (by simp [he])] at h
      simp only [mapInsert, if_neg he, List.length_cons]
      rw [ih (by omega)]

/-- Distinct keys bound the count of any one key by one. -/
lemma countP_le_one_of_nodup (m : LobbyMap) (hnd : (m.map Prod.fst).Nodup) (a : SockAddr) :
    List.countP (fun e => decide (e.1 = a)) m ≤ 1 := by
  induction m with
  | nil => simp
  | cons e rest ih =>
    rw [List.map_cons, List.nodup_cons] at hnd
    simp only [List.countP_cons]
    by_cases he : e.1 = a
    · have hz : List.countP (fun x => decide (x.1 = a)) rest = 0 := by
        rw [List.countP_eq_zero]
        intro x hx
        simp only [decide_eq_true_eq]
        intro hxa
        exact hnd.1 (List.mem_map.mpr ⟨x, hx, hxa.trans he.symm⟩)
      rw [hz, if_pos (by simp [he])]
    · rw [if_neg (by simp [he])]
      have := ih hnd.2
      omega

/-- Claim C7 helper: after inserting at a the key a is counted at least
once. -/
lemma one_le_countP_mapInsert (a : SockAddr) (v : Lobby) (m : LobbyMap) :
    1 ≤ List.countP (fun e => decide (e.1 = a)) (mapInsert a v m) := by
  induction m with
  | nil => simp [mapInsert, List.countP_cons]
  | cons e rest ih =>
    by_cases he : e.1 = a
    · simp [mapInsert, he, List.countP_cons]
    · simp only [mapInsert, if_neg he, List.countP_cons]
      omega

/-- Claim C7: registry keys are unique under replacement — two inserts for
the same address leave exactly one entry for that address, holding the Lobby
built from the second Hello with the second (fresh) timestamp, and the
registry size is unchanged by the second insert. -/
theorem insert_same_address_replaces (st : LobbyMap) (a : SockAddr) (m1 m2 : Datagram)
    (t1 t2 : Nat) (h1 : m1.command = Command.Hello) (h2 : m2.command = Command.Hello)
    (hnd : (st.map Prod.fst).Nodup) :
    ∃ s1 s2,
      LobbyList.insert t1 a m1 st = some s1 ∧
      LobbyList.insert t2 a m2 s1 = some s2 ∧
      List.countP (fun e => decide (e.1 = a)) s2 = 1 ∧
      mapFind a s2 = some (Lobby.new t2 a m2) ∧
      s2.length = s1.length := by
  refine ⟨mapInsert a (Lobby.new t1 a m1) st, mapInsert a (Lobby.new t2 a m2) (mapInsert a (Lobby.new t1 a m1) st), ?_, ?_, ?_, ?_, ?_⟩
  · simp [LobbyList.insert, Lobby.mk?, h1]
  · simp [LobbyList.insert, Lobby.mk?, h2]
  · exact countP_mapInsert _ _ _
      (le_of_eq (countP_mapInsert _ _ _ (countP_le_one_of_nodup st hnd a)))
  · exact mapFind_mapInsert _ _ _
  · exact length_mapInsert_of_mem _ _ _ (one_le_countP_mapInsert _ _ _)

/-- Witness for insert_same_address_replaces: two Hellos from the same
address into an empty registry. -/
theorem insert_same_address_replaces_witness :
    helloExample.command = Command.Hello ∧ (([] : LobbyMap).map Prod.fst).Nodup ∧
    (∃ s1 s2,
      LobbyList.insert 0 observedAddr helloExample ([] : LobbyMap) = some s1 ∧
      LobbyList.insert 1 observedAddr helloExample s1 = some s2 ∧
      List.countP (fun e => decide (e.1 = observedAddr)) s2 = 1 ∧
      mapFind observedAddr s2 = some (Lobby.new 1 observedAddr helloExample) ∧
      s2.length = s1.length) :=
  ⟨rfl, List.nodup_nil,
    insert_same_address_replaces [] observedAddr helloExample helloExample 0 1 rfl rfl
      List.nodup_nil⟩

/-- Folding key removals over a key list removes exactly the entries with a
listed key. -/
lemma foldl_mapRemove_eq_filter (ks : List SockAddr) (m : LobbyMap) :
    ks.foldl (fun acc k => mapRemove k acc) m =
      m.filter (fun e => decide (e.1 ∉ ks)) := by
  induction ks generalizing m with
  | nil => simp
  | cons k rest ih =>
    rw [List.foldl_cons, ih, mapRemove, List.filter_filter]
    apply List.filter_congr
    intro e _
    by_cases h1 : e.1 = k <;> by_cases h2 : e.1 ∈ rest <;> simp [h1, h2]

/-- Two entries of a distinct-key map sharing a key are the same entry. -/
lemma eq_of_mem_of_nodup_keys (m : LobbyMap) (hnd : (m.map Prod.fst).Nodup)
    (e1 e2 : SockAddr × Lobby) (h1 : e1 ∈ m) (h2 : e2 ∈ m) (hk : e1.1 = e2.1) :
    e1 = e2 := by
  induction m with
  | nil => cases h1
  | cons e rest ih =>
    rw [List.map_cons, List.nodup_cons] at hnd
    rcases List.mem_cons.mp h1 with rfl | h1m
    · rcases List.mem_cons.mp h2 with rfl | h2m
      · rfl
      · exact absurd (List.mem_map.mpr ⟨e2, h2m, hk.symm⟩) hnd.1
    · rcases List.mem_cons.mp h2 with rfl | h2m
      · exact absurd (List.mem_map.mpr ⟨e1, h1m, hk⟩) hnd.1
      · exact ih hnd.2 h1m h2m

/-- Claim C9: one sequential cleanup removes exactly the entries whose age
(now - modified) has reached the threshold and keeps every younger entry,
unchanged and in place. -/
theorem cleanup_removes_exactly_stale (now ttl : Nat) (st : LobbyMap)
    (hnd : (st.map Prod.fst).Nodup) :
    LobbyList.cleanup now ttl st =
      st.filter (fun e => decide (now - e.2.modified < ttl)) ∧
    (∀ e, e ∈ LobbyList.cleanup now ttl st ↔ e ∈ st ∧ now - e.2.modified < ttl) := by
  have hmain : LobbyList.cleanup now ttl st =
      st.filter (fun e => decide (now - e.2.modified < ttl)) := by
    rw [LobbyList.cleanup, foldl_mapRemove_eq_filter]
    apply List.filter_congr
    intro e he
    rw [decide_eq_decide]
    constructor
    · intro hnotin
      by_contra hyoung
      apply hnotin
      rw [List.mem_map]
      refine ⟨e, ?_, rfl⟩
      rw [List.mem_filter]
      exact ⟨he, by simpa using Nat.not_lt.mp hyoung⟩
    · intro hyoung hin
      rw [List.mem_map] at hin
      rcases hin with ⟨e2, he2, hke⟩
      rw [List.mem_filter] at he2
      rcases he2 with ⟨he2m, hold⟩
      have hee : e = e2 := eq_of_mem_of_nodup_keys st hnd e e2 he he2m hke.symm
      rw [decide_eq_true_eq] at hold
      rw [hee] at hyoung
      omega
  exact ⟨hmain, fun e => by
    rw [hmain, List.mem_filter]
    simp⟩

/-- Witness for cleanup_removes_exactly_stale: two entries, one back-dated
past the threshold; the sweep removes only the back-dated one. -/
theorem cleanup_removes_exactly_stale_witness :
    (([({ ip := (10, 0, 2, 15), port := 19567 }, { preserialized := [], modified := 0 }),
       ({ ip := (10, 0, 2, 16), port := 19567 }, { preserialized := [], modified := 110 })] :
         LobbyMap).map Prod.fst).Nodup ∧
    (LobbyList.cleanup 130 30
        [({ ip := (10, 0, 2, 15), port := 19567 }, { preserialized := [], modified := 0 }),
         ({ ip := (10, 0, 2, 16), port := 19567 }, { preserialized := [], modified := 110 })] =
      [({ ip := (10, 0, 2, 16), port := 19567 }, { preserialized := [], modified := 110 })]) :=
  ⟨by decide,
    by
      rw [(cleanup_removes_exactly_stale 130 30 _ (by decide)).1]
      decide⟩

/-- Claim C4: the Lobby built from a Hello and the observed source address
has a Response template whose fields are the Hello's fields in order, except
that each player-0 PlayerIpPort has its IP replaced by the observed IP while
keeping the self-reported port; non-player-0 and non-address fields are
untouched.  The final conjunct checks the spec's concrete example by decoding
the template: self-reported 10.0.2.15:19567 observed from 203.0.113.9:40000
becomes 203.0.113.9:19567. -/
theorem lobby_template_rewrites_player0 (now : Nat) (ra : SockAddr) (d : Datagram)
    (h : d.command = Command.Hello) :
    Lobby.mk? now ra d = some (Lobby.new now ra d) ∧
    (Lobby.new now ra d).preserialized = (responseTemplate ra d).serialize ∧
    (Lobby.new now ra d).modified = now ∧
    (responseTemplate ra d).command = Command.Response ∧
    (responseTemplate ra d).query_id = none ∧
    (responseTemplate ra d).tags = d.tags.map (replaceHostIp ra) ∧
    (∀ a : SockAddr, replaceHostIp ra (.PlayerIpPort 0 a) =
      .PlayerIpPort 0 { ip := ra.ip, port := a.port }) ∧
    (∀ (pid : Nat) (a : SockAddr), pid ≠ 0 →
      replaceHostIp ra (.PlayerIpPort pid a) = .PlayerIpPort pid a) ∧
    (∀ t : TrackerTag, (∀ (pid : Nat) (a : SockAddr), t ≠ .PlayerIpPort pid a) →
      replaceHostIp ra t = t) ∧
    Datagram.tryParse (Lobby.new 0 observedAddr helloExample).preserialized =
      .ok { protocol_version := 6, command := .Response, host_address := none,
            query_id := none,
            tags := [.SoftwareVersion [49, 46, 48, 46, 50],
                     .PlayerLimit 6,
                     .HasPassword,
                     .PlayerIpPort 0 { ip := (203, 0, 113, 9), port := 19567 },
                     .GameStatus .Active,
                     .PlayerNick 0 [115, 105, 108, 118, 101, 114, 102, 111, 120]] } := by
  refine ⟨by simp [Lobby.mk?, h], rfl, rfl, rfl, rfl, rfl,
    fun a => by simp [replaceHostIp], fun pid a hpid => by simp [replaceHostIp, hpid], ?_, by decide⟩
  intro t ht
  cases t <;> simp [replaceHostIp]
  case PlayerIpPort pid a =>
    intro hpid
    exact absurd (by rw [hpid]) (ht 0 a)

/-- Witness for lobby_template_rewrites_player0 at the spec's example. -/
theorem lobby_template_rewrites_player0_witness :
    helloExample.command = Command.Hello ∧
    Lobby.mk? 0 observedAddr helloExample = some (Lobby.new 0 observedAddr helloExample) :=
  ⟨rfl, (lobby_template_rewrites_player0 0 observedAddr helloExample rfl).1⟩

/-! ### Integer byte combination -/

/-- Two wire bytes combined most-significant first equal the base-256 value. -/
lemma combine16_bytes (b0 b1 : Nat) (h1 : b1 < 256) :
    (b0 <<< 8) ||| b1 = 256 * b0 + b1 := by
  have h2 : b1 < 2 ^ 8 := by simpa using h1
  rw [Nat.shiftLeft_eq]
  calc b0 * 2 ^ 8 ||| b1 = 2 ^ 8 * b0 ||| b1 := by rw [Nat.mul_comm]
    _ = 2 ^ 8 * b0 + b1 := (Nat.mul_add_lt_is_or h2 b0).symm
    _ = 256 * b0 + b1 := by norm_num

/-- Four wire bytes combined most-significant first equal the base-256
value. -/
lemma combine32_bytes (b0 b1 b2 b3 : Nat) (h1 : b1 < 256) (h2 : b2 < 256) (h3 : b3 < 256) :
    (b0 <<< 24) ||| (b1 <<< 16) ||| (b2 <<< 8) ||| b3 =
      16777216 * b0 + 65536 * b1 + 256 * b2 + b3 := by
  have e0 : b0 <<< 24 = 2 ^ 24 * b0 := by rw [Nat.shiftLeft_eq, Nat.mul_comm]
  have e1 : b1 <<< 16 = 2 ^ 16 * b1 := by rw [Nat.shiftLeft_eq, Nat.mul_comm]
  have e2 : b2 <<< 8 = 2 ^ 8 * b2 := by rw [Nat.shiftLeft_eq, Nat.mul_comm]
  have hA : 2 ^ 24 * b0 ||| 2 ^ 16 * b1 = 2 ^ 24 * b0 + 2 ^ 16 * b1 :=
    (Nat.mul_add_lt_is_or (by norm_num; omega) b0).symm
  have hB : 2 ^ 16 * (2 ^ 8 * b0 + b1) ||| 2 ^ 8 * b2 =
      2 ^ 16 * (2 ^ 8 * b0 + b1) + 2 ^ 8 * b2 :=
    (Nat.mul_add_lt_is_or (by norm_num; omega) _).symm
  have hC : 2 ^ 8 * (2 ^ 8 * (2 ^ 8 * b0 + b1) + b2) ||| b3 =
      2 ^ 8 * (2 ^ 8 * (2 ^ 8 * b0 + b1) + b2) + b3 :=
    (Nat.mul_add_lt_is_or (by norm_num; omega) _).symm
  rw [e0, e1, e2, hA]
  rw [show 2 ^ 24 * b0 + 2 ^ 16 * b1 = 2 ^ 16 * (2 ^ 8 * b0 + b1) by ring]
  rw [hB]
  rw [show 2 ^ 16 * (2 ^ 8 * b0 + b1) + 2 ^ 8 * b2 =
    2 ^ 8 * (2 ^ 8 * (2 ^ 8 * b0 + b1) + b2) by ring]
  rw [hC]
  ring

/-- The little-endian-host u16 decoder inverts the little-endian-host u16
encoder on every in-range value. -/
lemma u16_roundtrip (v : Nat) (hv : v < 65536) :
    tryParseU16 (serializeU16 v) = .ok v := by
  show Except.ok ((((v >>> 8) % 256) <<< 8) ||| (v % 256)) = Except.ok v
  have h : (((v >>> 8) % 256) <<< 8) ||| (v % 256) = v := by
    rw [combine16_bytes _ _ (Nat.mod_lt _ (by norm_num))]
    rw [Nat.shiftRight_eq_div_pow]
    norm_num
    omega
  rw [h]

/-- The little-endian-host u32 decoder inverts the little-endian-host u32
encoder on every in-range value. -/
lemma u32_roundtrip (v : Nat) (hv : v < 4294967296) :
    tryParseU32 (serializeU32 v) = .ok v := by
  show Except.ok ((((v >>> 24) % 256) <<< 24) ||| (((v >>> 16) % 256) <<< 16) |||
      (((v >>> 8) % 256) <<< 8) ||| (v % 256)) = Except.ok v
  have h : (((v >>> 24) % 256) <<< 24) ||| (((v >>> 16) % 256) <<< 16) |||
      (((v >>> 8) % 256) <<< 8) ||| (v % 256) = v := by
    rw [combine32_bytes _ _ _ _ (Nat.mod_lt _ (by norm_num)) (Nat.mod_lt _ (by norm_num))
      (Nat.mod_lt _ (by norm_num))]
    rw [Nat.shiftRight_eq_div_pow, Nat.shiftRight_eq_div_pow, Nat.shiftRight_eq_div_pow]
    norm_num
    omega
  rw [h]

/-! ### Stepping the scan loop over one well-formed tag -/

/-- One scan step over the tag [t, len, payload...] followed by rest. -/
lemma parseTagsLoopF_step (f t len : Nat) (payload rest : List Nat)
    (pv : Option Nat) (cmd : Option Command) (acc : List TrackerTag)
    (ht : ¬ t = 0) (hlen : payload.length = len) :
    parseTagsLoopF (f + 1) (t :: len :: (payload ++ rest)) pv cmd acc =
      match TrackerTag.tryParse (t :: len :: payload) with
      | .error e => .error e
      | .ok (.ProtocolVersion v) => parseTagsLoopF f rest (some v) cmd acc
      | .ok (.Command c) => parseTagsLoopF f rest pv (some c) acc
      | .ok tag => parseTagsLoopF f rest pv cmd (acc ++ [tag]) := by
  simp only [parseTagsLoopF]
  rw [if_neg ht]
  rw [if_neg (by rw [List.length_append, hlen]; omega)]
  rw [List.take_left' hlen, List.drop_left' hlen]

/-- One scan step over a ProtocolVersion tag. -/
lemma parseTagsLoopF_step_pv (f t len : Nat) (payload rest : List Nat)
    (pv : Option Nat) (cmd : Option Command) (acc : List TrackerTag) (v : Nat)
    (ht : ¬ t = 0) (hlen : payload.length = len)
    (htag : TrackerTag.tryParse (t :: len :: payload) = .ok (.ProtocolVersion v)) :
    parseTagsLoopF (f + 1) (t :: len :: (payload ++ rest)) pv cmd acc =
      parseTagsLoopF f rest (some v) cmd acc := by
  rw [parseTagsLoopF_step f t len payload rest pv cmd acc ht hlen, htag]

/-- One scan step over a Command tag. -/
lemma parseTagsLoopF_step_cmd (f t len : Nat) (payload rest : List Nat)
    (pv : Option Nat) (cmd : Option Command) (acc : List TrackerTag) (c : Command)
    (ht : ¬ t = 0) (hlen : payload.length = len)
    (htag : TrackerTag.tryParse (t :: len :: payload) = .ok (.Command c)) :
    parseTagsLoopF (f + 1) (t :: len :: (payload ++ rest)) pv cmd acc =
      parseTagsLoopF f rest pv (some c) acc := by
  rw [parseTagsLoopF_step f t len payload rest pv cmd acc ht hlen, htag]

/-- One scan step over any other recognized tag: it is appended to the list. -/
lemma parseTagsLoopF_step_push (f t len : Nat) (payload rest : List Nat)
    (pv : Option Nat) (cmd : Option Command) (acc : List TrackerTag) (tag : TrackerTag)
    (ht : ¬ t = 0) (hlen : payload.length = len)
    (htag : TrackerTag.tryParse (t :: len :: payload) = .ok tag)
    (hnotpv : ∀ v, ¬ tag = .ProtocolVersion v) (hnotcmd : ∀ c, ¬ tag = .Command c) :
    parseTagsLoopF (f + 1) (t :: len :: (payload ++ rest)) pv cmd acc =
      parseTagsLoopF f rest pv cmd (acc ++ [tag]) := by
  rw [parseTagsLoopF_step f t len payload rest pv cmd acc ht hlen, htag]
  cases tag <;>
    first
      | rfl
      | exact absurd rfl (hnotpv _)
      | exact absurd rfl (hnotcmd _)

/-- A QueryId tag slice parses back to its value. -/
lemma tryParse_queryIdTag (q : Nat) (hq : q < 4294967296) :
    TrackerTag.tryParse (2 :: 4 :: serializeU32 q) = .ok (.QueryId q) := by
  show (tryParseU32 (serializeU32 q)).map TrackerTag.QueryId = .ok (.QueryId q)
  rw [u32_roundtrip q hq]
  rfl

/-- The shape of the empty-registry search Response on the wire. -/
lemma emptyResponse_serialize (q : Nat) :
    Datagram.serialize
      { protocol_version := PROTOCOL_VERSION, command := .Response,
        host_address := none, query_id := some q, tags := [.ResponseCount 0] } =
      15 :: 2 :: ([0, 6] ++ (1 :: 1 :: ([1] ++
        (2 :: 4 :: (serializeU32 q ++ (6 :: 2 :: ([0, 0] ++ ([] : List Nat)))))))) := by
  simp [Datagram.serialize, TrackerTag.serialize, packTag, serializeU16, serializeU16OnHost,
    serializeU32, serializeU32OnHost, Command.toByte, PROTOCOL_VERSION]

/-- Decoding the empty-registry search Response yields a Response carrying
the query id and ResponseCount 0 (both as fields; the parsed query-id slot
stays empty, as the decoder never fills it). -/
lemma tryParse_emptySearchBuffer (q : Nat) (hq : q < 4294967296) :
    Datagram.tryParse
      (Datagram.serialize
        { protocol_version := PROTOCOL_VERSION, command := .Response,
          host_address := none, query_id := some q, tags := [.ResponseCount 0] }) =
      .ok { protocol_version := 6, command := .Response, host_address := none,
            query_id := none, tags := [.QueryId q, .ResponseCount 0] } := by
  rw [emptyResponse_serialize]
  have hloop : parseTagsLoopF 17
      (15 :: 2 :: ([0, 6] ++ (1 :: 1 :: ([1] ++
        (2 :: 4 :: (serializeU32 q ++ (6 :: 2 :: ([0, 0] ++ ([] : List Nat)))))))))
      none none [] =
      .ok (some 6, some Command.Response, [.QueryId q, .ResponseCount 0]) := by
    rw [show (17 : Nat) = 16 + 1 from rfl,
      parseTagsLoopF_step_pv 16 15 2 [0, 6] _ none none [] 6 (by norm_num) rfl (by decide)]
    rw [show (16 : Nat) = 15 + 1 from rfl,
      parseTagsLoopF_step_cmd 15 1 1 [1] _ (some 6) none [] Command.Response (by norm_num) rfl
        (by decide)]
    rw [show (15 : Nat) = 14 + 1 from rfl,
      parseTagsLoopF_step_push 14 2 4 (serializeU32 q) _ (some 6) (some Command.Response) []
        (.QueryId q) (by norm_num) rfl (tryParse_queryIdTag q hq) (by intro v h; cases h)
        (by intro c h; cases h)]
    simp only [List.nil_append]
    rw [show (14 : Nat) = 13 + 1 from rfl,
      parseTagsLoopF_step_push 13 6 2 [0, 0] _ (some 6) (some Command.Response)
        [TrackerTag.QueryId q] (.ResponseCount 0) (by norm_num) rfl (by decide)
        (by intro v h; cases h) (by intro c h; cases h)]
    rfl
  unfold Datagram.tryParse
  rw [show (15 :: 2 :: ([0, 6] ++ (1 :: 1 :: ([1] ++
      (2 :: 4 :: (serializeU32 q ++ (6 :: 2 :: ([0, 0] ++ ([] : List Nat))))))))).length = 17
    from rfl]
  rw [hloop]

/-! ### Decode error taxonomy: the scan loop never produces absence errors -/

/-- A mapped Except error comes from the underlying computation. -/
lemma except_map_error {α β γ : Type} (f : α → β) (x : Except γ α) (e : γ)
    (h : Except.map f x = .error e) : x = .error e := by
  cases x <;> simp_all [Except.map]

/-- tryParseCommand only fails with InvalidCommand. -/
lemma tryParseCommand_errD (p : List Nat) (e : ParseError)
    (h : tryParseCommand p = .error e) :
    e = .InvalidTag ∨ e = .InvalidCommand ∨ e = .InvalidGameStatus ∨
      e = .InvalidPlayerIndex := by
  unfold tryParseCommand at h
  split at h <;> simp_all

/-- tryParseGameStatus only fails with InvalidGameStatus. -/
lemma tryParseGameStatus_errD (p : List Nat) (e : ParseError)
    (h : tryParseGameStatus p = .error e) :
    e = .InvalidTag ∨ e = .InvalidCommand ∨ e = .InvalidGameStatus ∨
      e = .InvalidPlayerIndex := by
  unfold tryParseGameStatus at h
  split at h <;> simp_all

/-- tryParseU16 only fails with InvalidTag. -/
lemma tryParseU16_errD (p : List Nat) (e : ParseError)
    (h : tryParseU16 p = .error e) :
    e = .InvalidTag ∨ e = .InvalidCommand ∨ e = .InvalidGameStatus ∨
      e = .InvalidPlayerIndex := by
  unfold tryParseU16 tryParseU16OnHost at h
  split at h <;> simp_all

/-- tryParseU32 only fails with InvalidTag. -/
lemma tryParseU32_errD (p : List Nat) (e : ParseError)
    (h : tryParseU32 p = .error e) :
    e = .InvalidTag ∨ e = .InvalidCommand ∨ e = .InvalidGameStatus ∨
      e = .InvalidPlayerIndex := by
  unfold tryParseU32 tryParseU32OnHost at h
  split at h <;> simp_all

/-- tryParseU8 only fails with InvalidTag. -/
lemma tryParseU8_errD (p : List Nat) (e : ParseError)
    (h : tryParseU8 p = .error e) :
    e = .InvalidTag ∨ e = .InvalidCommand ∨ e = .InvalidGameStatus ∨
      e = .InvalidPlayerIndex := by
  unfold tryParseU8 at h
  split at h <;> simp_all

/-- tryParseIndexedSocketAddr only fails with InvalidTag or
InvalidPlayerIndex. -/
lemma tryParseIndexedSocketAddr_errD (p : List Nat) (e : ParseError)
    (h : tryParseIndexedSocketAddr p = .error e) :
    e = .InvalidTag ∨ e = .InvalidCommand ∨ e = .InvalidGameStatus ∨
      e = .InvalidPlayerIndex := by
  rcases p with _ | ⟨b0, r⟩
  · simp_all [tryParseIndexedSocketAddr]
  · rcases r with _ | ⟨b1, _ | ⟨b2, _ | ⟨b3, _ | ⟨b4, _ | ⟨b5, _ | ⟨b6, _ | ⟨b7, rr⟩⟩⟩⟩⟩⟩⟩ <;>
      by_cases hb : b0 < MAX_PLAYERS <;>
        simp_all [tryParseIndexedSocketAddr, tryParsePlayerId, tryParseU16, tryParseU16OnHost]

/-- tryParseIndexedRawString only fails with InvalidTag or
InvalidPlayerIndex. -/
lemma tryParseIndexedRawString_errD (p : List Nat) (e : ParseError)
    (h : tryParseIndexedRawString p = .error e) :
    e = .InvalidTag ∨ e = .InvalidCommand ∨ e = .InvalidGameStatus ∨
      e = .InvalidPlayerIndex := by
  rcases p with _ | ⟨b0, r⟩
  · simp_all [tryParseIndexedRawString]
  · by_cases hb : b0 < MAX_PLAYERS <;>
      simp_all [tryParseIndexedRawString, tryParsePlayerId]

/-- tryParseIndexedInt only fails with InvalidTag or InvalidPlayerIndex. -/
lemma tryParseIndexedInt_errD (p : List Nat) (e : ParseError)
    (h : tryParseIndexedInt p = .error e) :
    e = .InvalidTag ∨ e = .InvalidCommand ∨ e = .InvalidGameStatus ∨
      e = .InvalidPlayerIndex := by
  rcases p with _ | ⟨b0, r⟩
  · simp_all [tryParseIndexedInt]
  · rcases r with _ | ⟨b1, _ | ⟨b2, _ | ⟨b3, rr⟩⟩⟩ <;>
      by_cases hb : b0 < MAX_PLAYERS <;>
        simp_all [tryParseIndexedInt, tryParsePlayerId, tryParseU16, tryParseU16OnHost]

/-- tryParseIndexedLocation only fails with InvalidTag or
InvalidPlayerIndex. -/
lemma tryParseIndexedLocation_errD (p : List Nat) (e : ParseError)
    (h : tryParseIndexedLocation p = .error e) :
    e = .InvalidTag ∨ e = .InvalidCommand ∨ e = .InvalidGameStatus ∨
      e = .InvalidPlayerIndex := by
  rcases p with _ | ⟨b0, r⟩
  · simp_all [tryParseIndexedLocation]
  · rcases r with _ | ⟨b1, _ | ⟨b2, _ | ⟨b3, _ | ⟨b4, _ | ⟨b5, rr⟩⟩⟩⟩⟩ <;>
      by_cases hb : b0 < MAX_PLAYERS <;>
        simp_all [tryParseIndexedLocation, tryParsePlayerId, tryParseU16, tryParseU16OnHost]

/-- A failed tag parse never produces an absence (missing-protocol-version or
missing-command) error. -/
lemma trackerTag_tryParse_error (s : List Nat) (e : ParseError)
    (h : TrackerTag.tryParse s = .error e) :
    ¬ e = .MissingProtocolVersion ∧ ¬ e = .MissingCommand := by
  suffices hd : e = .InvalidTag ∨ e = .InvalidCommand ∨ e = .InvalidGameStatus ∨
      e = .InvalidPlayerIndex by
    rcases hd with rfl | rfl | rfl | rfl <;> exact ⟨by decide, by decide⟩
  rcases s with _ | ⟨t, _ | ⟨len, payload⟩⟩
  · simp [TrackerTag.tryParse] at h
    simp_all
  · simp [TrackerTag.tryParse] at h
    simp_all
  · simp only [TrackerTag.tryParse] at h
    by_cases hl : payload.length ≠ len
    · rw [if_pos hl] at h
      injection h with hh
      exact Or.inl hh.symm
    · rw [if_neg hl] at h
      split at h
      all_goals
        first
          | exact Except.noConfusion h
          | exact tryParseCommand_errD _ _ (except_map_error _ _ _ h)
          | exact tryParseGameStatus_errD _ _ (except_map_error _ _ _ h)
          | exact tryParseU16_errD _ _ (except_map_error _ _ _ h)
          | exact tryParseU32_errD _ _ (except_map_error _ _ _ h)
          | exact tryParseU8_errD _ _ (except_map_error _ _ _ h)
          | exact tryParseIndexedSocketAddr_errD _ _ (except_map_error _ _ _ h)
          | exact tryParseIndexedRawString_errD _ _ (except_map_error _ _ _ h)
          | exact tryParseIndexedInt_errD _ _ (except_map_error _ _ _ h)
          | exact tryParseIndexedLocation_errD _ _ (except_map_error _ _ _ h)
          | (injection h with hh; exact Or.inl hh.symm)

/-- The slot update one scan-loop iteration performs for a parsed tag:
ProtocolVersion and Command are intercepted, everything else is appended. -/
def scanStepState (pv : Option Nat) (cmd : Option Command) (acc : List TrackerTag) :
    TrackerTag → Option Nat × Option Command × List TrackerTag
  | .ProtocolVersion v => (some v, cmd, acc)
  | .Command c => (pv, some c, acc)
  | tg => (pv, cmd, acc ++ [tg])

/-- The scan loop and try_split_tags walk the buffer in lockstep: a completed
parse scan means the raw split succeeds with every slice parseable, a failed
split means the parse scan fails with a structural (non-absence) error, and
the scan loop itself never produces an absence error. -/
lemma loop_split_lockstep (f : Nat) :
    ∀ (bytes : List Nat) (pv : Option Nat) (cmd : Option Command) (acc : List TrackerTag),
      (∀ res, parseTagsLoopF f bytes pv cmd acc = .ok res →
        ∃ slices, trySplitTagsF f bytes = .ok slices ∧
          ∀ s ∈ slices, ∃ tg, TrackerTag.tryParse s = .ok tg) ∧
      (∀ e, trySplitTagsF f bytes = .error e →
        ∃ e2, parseTagsLoopF f bytes pv cmd acc = .error e2 ∧
          ¬ e2 = .MissingProtocolVersion ∧ ¬ e2 = .MissingCommand) ∧
      (∀ e, parseTagsLoopF f bytes pv cmd acc = .error e →
        ¬ e = .MissingProtocolVersion ∧ ¬ e = .MissingCommand) := by
  induction f with
  | zero =>
    intro bytes pv cmd acc
    refine ⟨?_, ?_, ?_⟩
    · intro res hres
      cases bytes with
      | nil => exact ⟨[], rfl, by simp⟩
      | cons b rest => simp [parseTagsLoopF] at hres
    · intro e he
      cases bytes with
      | nil => simp [trySplitTagsF] at he
      | cons b rest => exact ⟨.UnexpectedDatagramBoundary, rfl, by decide, by decide⟩
    · intro e he
      cases bytes with
      | nil => simp [parseTagsLoopF] at he
      | cons b rest =>
        have : e = .UnexpectedDatagramBoundary := by
          simp [parseTagsLoopF] at he
          simp [he]
        subst this
        exact ⟨by decide, by decide⟩
  | succ f ih =>
    intro bytes pv cmd acc
    cases bytes with
    | nil =>
      refine ⟨?_, ?_, ?_⟩
      · intro res hres
        exact ⟨[], rfl, by simp⟩
      · intro e he
        simp [trySplitTagsF] at he
      · intro e he
        simp [parseTagsLoopF] at he
    | cons b rest =>
      by_cases hb : b = 0
      · subst hb
        have hl0 : parseTagsLoopF (f + 1) (0 :: rest) pv cmd acc =
            parseTagsLoopF f rest pv cmd acc := rfl
        have hs0 : trySplitTagsF (f + 1) (0 :: rest) = trySplitTagsF f rest := rfl
        refine ⟨?_, ?_, ?_⟩
        · intro res hres
          rw [hl0] at hres
          obtain ⟨slices, h1, h2⟩ := (ih rest pv cmd acc).1 res hres
          exact ⟨slices, by rw [hs0]; exact h1, h2⟩
        · intro e he
          rw [hs0] at he
          obtain ⟨e2, h1, h2, h3⟩ := (ih rest pv cmd acc).2.1 e he
          exact ⟨e2, by rw [hl0]; exact h1, h2, h3⟩
        · intro e he
          rw [hl0] at he
          exact (ih rest pv cmd acc).2.2 e he
      · cases rest with
        | nil =>
          refine ⟨?_, ?_, ?_⟩
          · intro res hres
            simp [parseTagsLoopF, hb] at hres
          · intro e he
            refine ⟨.UnexpectedDatagramBoundary, ?_, by decide, by decide⟩
            simp [parseTagsLoopF, hb]
          · intro e he
            have : e = .UnexpectedDatagramBoundary := by
              simp [parseTagsLoopF, hb] at he
              simp [he]
            subst this
            exact ⟨by decide, by decide⟩
        | cons len rest2 =>
          by_cases hlen : rest2.length < len
          · refine ⟨?_, ?_, ?_⟩
            · intro res hres
              simp [parseTagsLoopF, hb, hlen] at hres
            · intro e he
              refine ⟨.UnexpectedDatagramBoundary, ?_, by decide, by decide⟩
              simp [parseTagsLoopF, hb, hlen]
            · intro e he
              have : e = .UnexpectedDatagramBoundary := by
                simp [parseTagsLoopF, hb, hlen] at he
                simp [he]
              subst this
              exact ⟨by decide, by decide⟩
          · cases htag : TrackerTag.tryParse (b :: len :: rest2.take len) with
            | error e3 =>
              refine ⟨?_, ?_, ?_⟩
              · intro res hres
                simp [parseTagsLoopF, hb, hlen, htag] at hres
              · intro e he
                refine ⟨e3, ?_, (trackerTag_tryParse_error _ _ htag).1,
                  (trackerTag_tryParse_error _ _ htag).2⟩
                simp [parseTagsLoopF, hb, hlen, htag]
              · intro e he
                have : e = e3 := by
                  simp [parseTagsLoopF, hb, hlen, htag] at he
                  simp [he]
                subst this
                exact trackerTag_tryParse_error _ _ htag
            | ok tg =>
              have hstep : parseTagsLoopF (f + 1) (b :: len :: rest2) pv cmd acc =
                  parseTagsLoopF f (rest2.drop len) (scanStepState pv cmd acc tg).1
                    (scanStepState pv cmd acc tg).2.1 (scanStepState pv cmd acc tg).2.2 := by
                cases tg <;> simp [parseTagsLoopF, hb, hlen, htag, scanStepState]
              refine ⟨?_, ?_, ?_⟩
              · intro res hres
                rw [hstep] at hres
                obtain ⟨slices, h1, h2⟩ :=
                  (ih (rest2.drop len) (scanStepState pv cmd acc tg).1
                    (scanStepState pv cmd acc tg).2.1 (scanStepState pv cmd acc tg).2.2).1 res hres
                refine ⟨(b :: len :: rest2.take len) :: slices, ?_, ?_⟩
                · simp [trySplitTagsF, hb, hlen, h1]
                · intro s hs
                  rcases List.mem_cons.mp hs with rfl | hs2
                  · exact ⟨tg, htag⟩
                  · exact h2 s hs2
              · intro e he
                have hdeep : trySplitTagsF f (rest2.drop len) = .error e := by
                  cases hd : trySplitTagsF f (rest2.drop len) with
                  | error e4 =>
                    simp [trySplitTagsF, hb, hlen, hd] at he
                    rw [he]
                  | ok v =>
                    simp [trySplitTagsF, hb, hlen, hd] at he
                obtain ⟨e2, h1, h2, h3⟩ :=
                  (ih (rest2.drop len) (scanStepState pv cmd acc tg).1
                    (scanStepState pv cmd acc tg).2.1 (scanStepState pv cmd acc tg).2.2).2.1 e hdeep
                exact ⟨e2, by rw [hstep]; exact h1, h2, h3⟩
              · intro e he
                rw [hstep] at he
                exact (ih (rest2.drop len) (scanStepState pv cmd acc tg).1
                  (scanStepState pv cmd acc tg).2.1 (scanStepState pv cmd acc tg).2.2).2.2 e he

/-- Claim C5: the absence errors (missing-protocol-version, missing-command)
are reported only for buffers whose whole scan succeeds — every structural
boundary error and every per-tag error takes precedence, even when the buffer
also lacks a ProtocolVersion or Command field. -/
theorem missing_errors_only_after_full_scan :
    (∀ (bytes : List Nat) (e : ParseError), trySplitTags bytes = .error e →
      ∃ e2, Datagram.tryParse bytes = .error e2 ∧
        ¬ e2 = .MissingProtocolVersion ∧ ¬ e2 = .MissingCommand) ∧
    (∀ bytes : List Nat,
      Datagram.tryParse bytes = .error .MissingProtocolVersion ∨
        Datagram.tryParse bytes = .error .MissingCommand →
      ∃ slices, trySplitTags bytes = .ok slices ∧
        ∀ s ∈ slices, ∃ tg, TrackerTag.tryParse s = .ok tg) := by
  constructor
  · intro bytes e he
    obtain ⟨e2, hloop, h1, h2⟩ :=
      (loop_split_lockstep bytes.length bytes none none []).2.1 e he
    refine ⟨e2, ?_, h1, h2⟩
    unfold Datagram.tryParse
    rw [hloop]
  · intro bytes hmiss
    cases hloop : parseTagsLoopF bytes.length bytes none none [] with
    | error e =>
      obtain ⟨h1, h2⟩ := (loop_split_lockstep bytes.length bytes none none []).2.2 e hloop
      have hpe : Datagram.tryParse bytes = .error e := by
        unfold Datagram.tryParse
        rw [hloop]
      rcases hmiss with hm | hm <;> rw [hpe] at hm
      · injection hm with hh
        exact absurd hh h1
      · injection hm with hh
        exact absurd hh h2
    | ok res =>
      exact (loop_split_lockstep bytes.length bytes none none []).1 res hloop

/-- Witness for missing_errors_only_after_full_scan: a truncated buffer that
also lacks both ProtocolVersion and Command still reports the structural
boundary error. -/
theorem missing_errors_only_after_full_scan_witness :
    trySplitTags [16, 5, 49] = .error .UnexpectedDatagramBoundary ∧
    (∃ e2, Datagram.tryParse [16, 5, 49] = .error e2 ∧
      ¬ e2 = .MissingProtocolVersion ∧ ¬ e2 = .MissingCommand) :=
  ⟨by decide,
    missing_errors_only_after_full_scan.1 [16, 5, 49] .UnexpectedDatagramBoundary (by decide)⟩

/-- Claim C3: for every registry state, search term, query id and limit —
the term is accepted but has no effect on the result; search on an empty
batch (empty registry or zero limit) returns exactly one buffer decoding to
a Response carrying the query id and ResponseCount 0; otherwise it returns
exactly min(size, limit) buffers, the i-th being the i-th lobby's precomputed
template with QueryId, ResponseIndex i and the batch ResponseCount appended,
indices covering 0..n-1. -/
theorem search_batches (m : LobbyMap) (term : Option (List Nat)) (q l : Nat)
    (hq : q < 4294967296) :
    LobbyList.search m term q l = LobbyList.search m none q l ∧
    ((m = [] ∨ l = 0) →
      ∃ buf, LobbyList.search m term q l = [buf] ∧
        Datagram.tryParse buf =
          .ok { protocol_version := 6, command := .Response, host_address := none,
                query_id := none, tags := [.QueryId q, .ResponseCount 0] }) ∧
    (¬ m = [] → ¬ l = 0 →
      (LobbyList.search m term q l).length = min m.length l ∧
      ∀ i, i < min m.length l →
        ∃ e, m[i]? = some e ∧
          (LobbyList.search m term q l)[i]? =
            some (e.2.preserialized ++ (TrackerTag.QueryId q).serialize ++
              (TrackerTag.ResponseIndex i).serialize ++
              (TrackerTag.ResponseCount (min m.length l)).serialize)) := by
  have hterm : LobbyList.search m term q l = LobbyList.search m none q l := by
    cases term <;> rfl
  refine ⟨hterm, ?_, ?_⟩
  · intro h
    rw [hterm]
    have hsize : min m.length l = 0 := by
      rcases h with rfl | rfl <;> simp
    refine ⟨_, ?_, tryParse_emptySearchBuffer q hq⟩
    simp only [LobbyList.search]
    rw [if_pos hsize]
  · intro hm hl
    rw [hterm]
    have hpos : 0 < min m.length l :=
      Nat.lt_min.mpr ⟨List.length_pos.mpr hm, Nat.pos_of_ne_zero hl⟩
    have hne : ¬ min m.length l = 0 := by omega
    have hlen : (LobbyList.search m none q l).length = min m.length l := by
      simp only [LobbyList.search]
      rw [if_neg hne]
      simp only [List.length_map, List.enum_length, List.length_take]
      omega
    refine ⟨hlen, ?_⟩
    intro i hi
    have him : i < m.length := lt_of_lt_of_le hi (Nat.min_le_left _ _)
    obtain ⟨e, he⟩ : ∃ e, m[i]? = some e := by
      rw [List.getElem?_eq_getElem him]
      exact ⟨_, rfl⟩
    refine ⟨e, he, ?_⟩
    simp only [LobbyList.search]
    rw [if_neg hne]
    rw [List.getElem?_map, List.getElem?_enum, List.getElem?_take_of_lt hi, he]
    rfl

/-- Witness for search_batches: the empty registry with a Some search term,
query id 7 and limit 500 yields one Response with query id 7 and count 0. -/
theorem search_batches_witness :
    7 < 4294967296 ∧
    (∃ buf, LobbyList.search ([] : LobbyMap) (some [97]) 7 500 = [buf] ∧
      Datagram.tryParse buf =
        .ok { protocol_version := 6, command := .Response, host_address := none,
              query_id := none, tags := [.QueryId 7, .ResponseCount 0] }) :=
  ⟨by norm_num, (search_batches [] (some [97]) 7 500 (by norm_num)).2.1 (Or.inl rfl)⟩

/-- Witness for pack_tag_truncates_length at a 256-byte raw-string payload. -/
theorem pack_tag_truncates_length_witness :
    255 < (List.replicate 256 55).length ∧
    ((TrackerTag.QueryString (List.replicate 256 55)).serialize =
        3 :: ((List.replicate 256 55).length % 256) :: List.replicate 256 55 ∧
      (List.replicate 256 55).length % 256 ≠ (List.replicate 256 55).length ∧
      ((TrackerTag.QueryString (List.replicate 256 55)).serialize).length =
        2 + (List.replicate 256 55).length) :=
  ⟨by rw [List.length_replicate]; omega,
    pack_tag_truncates_length (List.replicate 256 55) (by rw [List.length_replicate]; omega)⟩

end Ratd
